import Mathlib

/-!
Shallow embedding of `src/main.py`, a converter from the 5emm JSON statblock
schema to the javalent Fantasy Statblock YAML schema, together with theorems
checking the specification claims against the code.

Python integers are modelled as `Int` (counts that the source only ever uses
as non-negative are `Nat`), Python float arithmetic appearing in the source is
modelled exactly over `ℚ` (every value this file evaluates is exactly
representable in binary64), fallible code is modelled in `Except String`,
and uncaught Python exceptions become `Except.error` with a message naming
the exception.
-/

namespace FiveEmm

/-- Python floor division `(score - 10) // 2` from `calc_modifier`.
Lean `Int` division is E-rounding, which agrees with Python floor division
for the positive divisor 2. -/
def calcModifier (score : Int) : Int := (score - 10) / 2

/-- `dice_avg`: average roll of a die, `(dice_type + 1) / 2` (Python true division). -/
def diceAvg (diceType : Int) : ℚ := (diceType + 1) / 2

/-- `calc_dice`: `floor(count * dice_avg(dice_type))`, written over the
common denominator 2 so the kernel can evaluate it; the bridging lemma
`calcDice_eq_floor` below identifies it with the floored rational product
the source computes in float arithmetic. Lean `Int` division rounds like
Python floor division for the positive divisor 2. -/
def calcDice (count diceType : Int) : Int := count * (diceType + 1) / 2

/-- Python format spec `{n:+}`: an integer with an explicit sign. -/
def signedStr (n : Int) : String := if 0 ≤ n then "+" ++ toString n else toString n

/-- `damage_str`: the rendering of a damage phrase. -/
def damageStr (count diceType modifier : Int) (damageType : String) : String :=
  toString (calcDice count diceType + modifier) ++ " (" ++ toString count ++ "d"
    ++ toString diceType ++ signedStr modifier ++ ") " ++ damageType ++ " damage"

/-- English number words below twenty, as produced by `num2words`. -/
def numWordSmall : Nat → String
  | 0 => "zero" | 1 => "one" | 2 => "two" | 3 => "three" | 4 => "four"
  | 5 => "five" | 6 => "six" | 7 => "seven" | 8 => "eight" | 9 => "nine"
  | 10 => "ten" | 11 => "eleven" | 12 => "twelve" | 13 => "thirteen"
  | 14 => "fourteen" | 15 => "fifteen" | 16 => "sixteen" | 17 => "seventeen"
  | 18 => "eighteen" | _ => "nineteen"

/-- English tens words, as produced by `num2words`. -/
def numWordTens : Nat → String
  | 2 => "twenty" | 3 => "thirty" | 4 => "forty" | 5 => "fifty"
  | 6 => "sixty" | 7 => "seventy" | 8 => "eighty" | _ => "ninety"

/-- Model of the external `num2words` converter for the values this program
feeds it (attack, action and target counts). Faithful for `n < 100`; the
fallback above that range is never evaluated in this development. -/
def numToWords (n : Nat) : String :=
  if n < 20 then numWordSmall n
  else if n < 100 then
    numWordTens (n / 10) ++ (if n % 10 = 0 then "" else "-" ++ numWordSmall (n % 10))
  else toString n

/-- Character-level worker for `pyTitle`. -/
def pyTitleAux : Bool → List Char → List Char
  | _, [] => []
  | prevAlpha, c :: cs =>
    (if c.isAlpha then (if prevAlpha then c.toLower else c.toUpper) else c)
      :: pyTitleAux c.isAlpha cs

/-- Python `str.title()` for ASCII text: the first letter of every
alphabetic run is uppercased and the rest lowercased. -/
def pyTitle (s : String) : String := ⟨pyTitleAux false s.data⟩

/-- Python `sep.join(l)`. -/
def pyJoin (sep : String) : List String → String
  | [] => ""
  | [x] => x
  | x :: y :: xs => x ++ sep ++ pyJoin sep (y :: xs)

/-- Left-pad a digit string with zeros to the given length. -/
def padZeros (s : String) (k : Nat) : String :=
  ⟨List.replicate (k - s.length) '0'⟩ ++ s

/-- Model of the CPython `repr` of the float quotient `a / b` (`b ≠ 0`),
for quotients whose exact value has a decimal expansion of at most
17 digits after the point — such an expansion is the shortest decimal that
round-trips through binary64, hence exactly what `repr` prints. This covers
every division this development evaluates; other quotients return a
placeholder that is never evaluated here. -/
def pyDivStr (a b : Int) : String :=
  match (List.range 18).find? (fun k => a * 10 ^ k % b == 0) with
  | some 0 => toString (a / b) ++ ".0"
  | some k =>
    let n := a * 10 ^ k / b
    let m := n.natAbs
    (if n < 0 then "-" else "") ++ toString (m / 10 ^ k) ++ "."
      ++ padZeros (toString (m % 10 ^ k)) k
  | none => "unmodelled float"

/-- Python `str.replace` (all non-overlapping occurrences, left to right) on
character lists, with explicit fuel for structural recursion; the fuel is
always instantiated with the length of the scanned list, which suffices
because every step consumes at least one character. -/
def pyReplaceAux (pat rep : List Char) : Nat → List Char → List Char
  | 0, l => l
  | _ + 1, [] => []
  | fuel + 1, c :: cs =>
    if pat.isPrefixOf (c :: cs) then
      rep ++ pyReplaceAux pat rep fuel (List.drop (pat.length - 1) cs)
    else c :: pyReplaceAux pat rep fuel cs

/-- Python `s.replace(pattern, repl)` for a non-empty pattern (every pattern
the source passes is a non-empty literal tag). -/
def pyReplace (s pattern repl : String) : String :=
  if pattern.data.isEmpty then s
  else ⟨pyReplaceAux pattern.data repl.data s.data.length s.data⟩

/-- Python `str.lower()` for ASCII text, on the character list so the kernel
can evaluate it. -/
def pyToLower (s : String) : String := ⟨s.data.map Char.toLower⟩

/-- Python dict assignment `m[k] = v`: replace in place when the key exists,
append otherwise (insertion order is preserved, as in Python dicts). -/
def dictInsert (m : List (String × Int)) (k : String) (v : Int) : List (String × Int) :=
  if m.any (fun p => p.1 == k) then
    m.map (fun p => if p.1 == k then (k, v) else p)
  else m ++ [(k, v)]

/-- The six ability abbreviations, in the fixed order of the `ABILITIES` dict. -/
inductive Ability | STR | DEX | CON | INT | WIS | CHA
deriving Repr, DecidableEq

/-- Abbreviated ability names, the keys of `ABILITIES`. -/
def abilityAbbr : Ability → String
  | .STR => "STR" | .DEX => "DEX" | .CON => "CON"
  | .INT => "INT" | .WIS => "WIS" | .CHA => "CHA"

/-- Full ability names, the values of `ABILITIES`. -/
def abilityFull : Ability → String
  | .STR => "strength" | .DEX => "dexterity" | .CON => "constitution"
  | .INT => "intelligence" | .WIS => "wisdom" | .CHA => "charisma"

/-- The ability-order list `ABILITIES` is iterated in. -/
def abilityOrder : List Ability := [.STR, .DEX, .CON, .INT, .WIS, .CHA]

/-- `json_stats["stats"]`: the six ability scores. -/
structure AbilityScores where
  STR : Int
  DEX : Int
  CON : Int
  INT : Int
  WIS : Int
  CHA : Int
deriving Repr, DecidableEq

/-- Lookup `json_stats["stats"][abbr]`. -/
def getScore (a : AbilityScores) : Ability → Int
  | .STR => a.STR | .DEX => a.DEX | .CON => a.CON
  | .INT => a.INT | .WIS => a.WIS | .CHA => a.CHA

/-- A modifier specification: `override`, `overrideValue`, `stat`. -/
structure ModifierSpec where
  override : Bool
  overrideValue : Int
  stat : Ability
deriving Repr, DecidableEq

/-- An attack damage specification. -/
structure DamageSpec where
  count : Int
  dice : Int
  modifier : ModifierSpec
  type : String
deriving Repr, DecidableEq

/-- `attack["alternateDamage"]`. The input schema carries the alternate
damage type, although the source never reads it. -/
structure AltDamage where
  active : Bool
  count : Int
  dice : Int
  modifier : ModifierSpec
  type : String
  condition : String
deriving Repr, DecidableEq

/-- One entry of `attack["additionalDamage"]`. -/
structure AddlDamage where
  count : Int
  dice : Int
  type : String
deriving Repr, DecidableEq

/-- `attack["range"]`. -/
structure RangeSpec where
  reach : Int
  standard : Int
  long : Int
deriving Repr, DecidableEq

/-- `attack["distance"]`. -/
inductive Distance | MELEE | RANGED | BOTH
deriving Repr, DecidableEq

/-- The raw string value of a distance in the input JSON. -/
def distanceRaw : Distance → String
  | .MELEE => "MELEE" | .RANGED => "RANGED" | .BOTH => "BOTH"

/-- One entry of `json_stats["attacks"]`. -/
structure Attack where
  id : String
  name : String
  distance : Distance
  kind : String
  range : RangeSpec
  modifier : ModifierSpec
  damage : DamageSpec
  alternateDamage : AltDamage
  additionalDamage : List AddlDamage
  targets : Nat
  description : String
deriving Repr, DecidableEq

/-- A limited-use specification: `count` and `rate`. -/
structure LimitedUse where
  count : Nat
  rate : String
deriving Repr, DecidableEq

/-- One entry of `json_stats["actions"]` or `json_stats["reactions"]`. -/
structure ActionEntry where
  id : String
  name : String
  description : String
  limitedUse : Option LimitedUse
  legendaryOnly : Bool
  bonusAction : Bool
deriving Repr, DecidableEq

/-- One entry of `json_stats["traits"]`. -/
structure Trait where
  name : String
  description : String
  limitedUse : LimitedUse
deriving Repr, DecidableEq

/-- One entry of `json_stats["multiattacks"]`: attack ids and action ids. -/
structure MAGroup where
  attacks : List String
  actions : List String
deriving Repr, DecidableEq

/-- One entry of `json_stats["legendaryActions"]["actions"]`. -/
structure LegRef where
  actionId : String
  cost : Int
deriving Repr, DecidableEq

/-- `json_stats["legendaryActions"]`. -/
structure LegendaryActs where
  actions : List LegRef
deriving Repr, DecidableEq

/-- One per-ability entry of `json_stats["saves"]`. -/
structure SaveSpec where
  proficient : Bool
  override : Bool
  overrideValue : Int
deriving Repr, DecidableEq

/-- `json_stats["saves"]`, keyed by ability abbreviation. -/
structure Saves where
  STR : SaveSpec
  DEX : SaveSpec
  CON : SaveSpec
  INT : SaveSpec
  WIS : SaveSpec
  CHA : SaveSpec
deriving Repr, DecidableEq

/-- Lookup `json_stats["saves"][abbr]`. -/
def getSave (sv : Saves) : Ability → SaveSpec
  | .STR => sv.STR | .DEX => sv.DEX | .CON => sv.CON
  | .INT => sv.INT | .WIS => sv.WIS | .CHA => sv.CHA

/-- One entry of `json_stats["skills"]`; `label` and `stat` sit under the
nested `skill` key in the JSON. -/
structure SkillSpec where
  label : String
  stat : Ability
  proficient : Bool
  expertise : Bool
  override : Bool
  overrideValue : Int
deriving Repr, DecidableEq

/-- One entry of `json_stats["speeds"]`. -/
structure Speed where
  type : String
  speed : Int
  note : String
deriving Repr, DecidableEq

/-- `json_stats["HP"]`: hit-die count and die type. -/
structure HPInfo where
  HD : Int
  type : Int
deriving Repr, DecidableEq

/-- The input record, the JSON document handed to `parse_stats`. -/
structure Stats where
  name : String
  useArticleInToken : Bool
  proficiency : Int
  stats : AbilityScores
  saves : Saves
  skills : List SkillSpec
  attacks : List Attack
  actions : List ActionEntry
  reactions : List ActionEntry
  multiattacks : List MAGroup
  legendaryActions : LegendaryActs
  traits : List Trait
  speeds : List Speed
  senses : List (String × Int)
  vulnerabilities : List String
  resistances : List String
  immunities : List String
  conditions : List String
  HP : HPInfo
  AC : Int
  CR : String
  size : String
  type : String
  alignment : String
  languages : String
deriving Repr, DecidableEq

/-- A `{name, desc}` output pair. -/
structure NamedDesc where
  name : String
  desc : String
deriving Repr, DecidableEq

/-- The result of `get_action`: an attack or an action dict. -/
inductive Entry
  | attack (a : Attack)
  | action (a : ActionEntry)
deriving Repr, DecidableEq

/-- The `name` key of a resolved entry. -/
def entryName : Entry → String
  | .attack a => a.name
  | .action a => a.name

/-- The error message of the `ValueError` raised by `get_action`. -/
def lookupMsg (id : String) : String := "Attack with ID " ++ id ++ " not found"

/-- `get_action`: scan `attacks` first, then `actions`; raise `ValueError`
when neither contains the id. -/
def getAction (id : String) (s : Stats) : Except String Entry :=
  match s.attacks.find? (fun a => a.id == id) with
  | some a => .ok (.attack a)
  | none =>
    match s.actions.find? (fun a => a.id == id) with
    | some a => .ok (.action a)
    | none => .error (lookupMsg id)

/-- `mapME f l`: run `f` left to right, aborting at the first error — the
semantics of a Python loop whose body may raise. -/
def mapME (f : α → Except String β) : List α → Except String (List β)
  | [] => .ok []
  | x :: xs =>
    match f x with
    | .error e => .error e
    | .ok y =>
      match mapME f xs with
      | .error e => .error e
      | .ok ys => .ok (y :: ys)

/-- One step of `Counter` construction: bump the count of a seen key,
append a fresh key with count 1. -/
def collStep (acc : List (String × Nat)) (id : String) : List (String × Nat) :=
  if acc.any (fun p => p.1 == id) then
    acc.map (fun p => if p.1 == id then (p.1, p.2 + 1) else p)
  else acc ++ [(id, 1)]

/-- `collections.Counter(l)` as an insertion-ordered list of `(key, count)`
pairs, matching the iteration order of `Counter.items()`. -/
def collate (l : List String) : List (String × Nat) := l.foldl collStep []

/-- The attack-rendering loop of `process_multiattack`: `total` is the number
of collated items and `idx` the running `enumerate` index; the last item gets
an `"and "` prefix when there is more than one item. -/
def renderAttackItems (s : Stats) (total : Nat) : Nat → List (String × Nat) → Except String (List String)
  | _, [] => .ok []
  | idx, (id, count) :: rest =>
    match getAction id s with
    | .error e => .error e
    | .ok e =>
      match renderAttackItems s total (idx + 1) rest with
      | .error e => .error e
      | .ok tail =>
        .ok (((if idx == total - 1 && decide (1 < total) then "and " else "")
          ++ numToWords count ++ " " ++ entryName e ++ " attack"
          ++ (if 1 < count then "s" else "")) :: tail)

/-- The action-rendering loop of `process_multiattack`. In the source these
rendered phrases are appended to the `attacks` list. -/
def renderActionItems (s : Stats) : List (String × Nat) → Except String (List String)
  | [] => .ok []
  | (id, count) :: rest =>
    match getAction id s with
    | .error e => .error e
    | .ok e =>
      match renderActionItems s rest with
      | .error e => .error e
      | .ok tail => .ok ((numToWords count ++ " " ++ entryName e) :: tail)

/-- The body of the `for ma in json_stats["multiattacks"]` loop. The local
`actions` list of the source receives no appends anywhere (the action loop
appends to `attacks` instead), so it is the empty list here, exactly as at
every evaluation of the final conditional in the source. -/
def renderGroup (s : Stats) (ma : MAGroup) : Except String String :=
  match renderAttackItems s (collate ma.attacks).length 0 (collate ma.attacks) with
  | .error e => .error e
  | .ok attackPhrases =>
    match renderActionItems s (collate ma.actions) with
    | .error e => .error e
    | .ok actionPhrases =>
      let attacks := attackPhrases ++ actionPhrases
      let actions : List String := []
      .ok (if actions ≠ [] then
            (if attacks ≠ [] then
              "uses " ++ pyJoin ", " actions ++ " followed by " ++ pyJoin ", " attacks
            else "")
          else "makes " ++ pyJoin ", " attacks)

/-- `process_multiattack`: render every group and join with `" or "` inside
the monster-name sentence. -/
def processMultiattack (s : Stats) : Except String String :=
  match mapME (renderGroup s) s.multiattacks with
  | .error e => .error e
  | .ok rendered => .ok (s.name ++ " " ++ pyJoin " or " rendered ++ ".")

/-- Resolve a modifier spec: override value when `override` is set, else the
ability modifier of the referenced stat. -/
def resolveModifier (s : Stats) (m : ModifierSpec) : Int :=
  if m.override then m.overrideValue else calcModifier (getScore s.stats m.stat)

/-- The `reach` clause of an attack: non-empty for `MELEE` and `BOTH`. -/
def reachClause (atk : Attack) : String :=
  if atk.distance = .BOTH ∨ atk.distance = .MELEE then
    "reach " ++ toString atk.range.reach ++ " ft."
  else ""

/-- The `range` clause of an attack: non-empty for `RANGED` and `BOTH`.
The source divides the standard range by the long range
(`attack["range"]["standard"]/attack["range"]["long"]`, Python float
division), so the clause carries the quotient, and a long range of zero
raises `ZeroDivisionError`. -/
def rangeClause (atk : Attack) : Except String String :=
  if atk.distance = .BOTH ∨ atk.distance = .RANGED then
    if atk.range.long = 0 then .error "ZeroDivisionError: division by zero"
    else .ok ("range " ++ pyDivStr atk.range.standard atk.range.long ++ " ft.")
  else .ok ""

/-- The joined reach/range part of the attack line:
`" or ".join(filter(None, [reach, range_])) + ", "`. -/
def reachRangeClause (atk : Attack) : Except String String :=
  match rangeClause atk with
  | .error e => .error e
  | .ok rc => .ok (pyJoin " or " (([reachClause atk, rc]).filter (fun x => x ≠ "")) ++ ", ")

/-- The opening of the attack line, up to and including the target clause. -/
def attackHead (s : Stats) (atk : Attack) : Except String String :=
  match reachRangeClause atk with
  | .error e => .error e
  | .ok rr =>
    .ok (pyTitle ((if atk.distance = .BOTH then "Melee or Ranged" else distanceRaw atk.distance)
          ++ " " ++ atk.kind ++ " Attack: ")
        ++ signedStr (resolveModifier s atk.modifier) ++ " to hit, "
        ++ rr
        ++ numToWords atk.targets ++ " target" ++ (if 1 < atk.targets then "s" else "") ++ ". ")

/-- The `"Hit: "` part with the primary damage phrase. -/
def hitPart (s : Stats) (atk : Attack) : String :=
  "Hit: " ++ damageStr atk.damage.count atk.damage.dice
    (resolveModifier s atk.damage.modifier) atk.damage.type

/-- The alternate-damage suffix. The source passes `attack["damage"]["type"]`
(the primary damage type) to `damage_str`, not the alternate damage type. -/
def altSuffix (s : Stats) (atk : Attack) : String :=
  if atk.alternateDamage.active then
    ", or " ++ damageStr atk.alternateDamage.count atk.alternateDamage.dice
        (resolveModifier s atk.alternateDamage.modifier) atk.damage.type
      ++ " " ++ atk.alternateDamage.condition
  else ""

/-- The additional-damage loop with its `enumerate(..., start=1)` index:
a `", and "` separator after element `total - 1`, a `", "` separator after
earlier elements, nothing after the last. -/
def renderAddl (total : Nat) : Nat → List AddlDamage → String
  | _, [] => ""
  | i, d :: rest =>
    damageStr d.count d.dice 0 d.type
      ++ (if i == total - 1 then ", and " else if i < total then ", " else "")
      ++ renderAddl total (i + 1) rest

/-- The additional-damage suffix of the attack line. -/
def addlSuffix (atk : Attack) : String :=
  if atk.additionalDamage ≠ [] then
    " plus " ++ renderAddl atk.additionalDamage.length 1 atk.additionalDamage
  else ""

/-- The full attack description of one attack, before tag substitution. -/
def attackDescription (s : Stats) (atk : Attack) : Except String String :=
  match attackHead s atk with
  | .error e => .error e
  | .ok head =>
    .ok (head ++ hitPart s atk ++ altSuffix s atk ++ addlSuffix atk ++ "."
      ++ (if atk.description ≠ "" then " " ++ atk.description else ""))

/-- `process_description`: the ordered tag-substitution pass. -/
def processDescription (description : String) (s : Stats) : String :=
  let d := abilityOrder.foldl (fun d ab =>
    let bonus := calcModifier (getScore s.stats ab) + s.proficiency
    pyReplace
      (pyReplace d ("\x7bDC:" ++ abilityAbbr ab ++ "\x7d") ("DC " ++ toString (8 + bonus)))
      ("\x7bA:" ++ abilityAbbr ab ++ "\x7d") (signedStr bonus)) description
  let nameStr := if s.useArticleInToken then "the " ++ s.name else s.name
  let d := pyReplace (pyReplace d "\x7bmonster.name\x7d" nameStr) "\x7bNAME\x7d" nameStr
  let d := pyReplace d "\x7bmonster.proficiency\x7d" (toString s.proficiency)
  let d := pyReplace d "\x7bmonster.AC\x7d" (toString s.AC)
  let hpBonus := calcModifier (getScore s.stats .CON) * s.HP.HD
  pyReplace d "\x7bmonster.hp\x7d"
    (toString s.HP.HD ++ "d" ++ toString s.HP.type ++ signedStr hpBonus)

/-- `process_attacks`: one `{name, desc}` pair per attack, the description
passed through tag substitution. -/
def processAttacks (s : Stats) : Except String (List NamedDesc) :=
  mapME (fun atk =>
    match attackDescription s atk with
    | .error e => .error e
    | .ok d => .ok (NamedDesc.mk atk.name (processDescription d s))) s.attacks

/-- `process_action`: name with a `"(<count>/day)"` suffix when a limited-use
count is present and non-zero, description through tag substitution. -/
def processAction (a : ActionEntry) (s : Stats) : NamedDesc :=
  let name := a.name ++
    (match a.limitedUse with
     | some lu => if lu.count ≠ 0 then " (" ++ toString lu.count ++ "/day)" else ""
     | none => "")
  NamedDesc.mk name (processDescription a.description s)

/-- The traits loop of `parse_stats`. When a limited-use count is present and
non-zero the source executes `name.append(...)` on a string, which raises
`AttributeError` (the quoted Python message is modelled without its quote
characters); otherwise the trait passes through unchanged. -/
def processTraits (s : Stats) : Except String (List NamedDesc) :=
  mapME (fun t =>
    if t.limitedUse.count ≠ 0 then
      .error "AttributeError: str object has no attribute append"
    else .ok (NamedDesc.mk t.name (processDescription t.description s))) s.traits

/-- The body of the `process_legendary_actions` loop: resolve the reference,
then build the `{name, desc}` dict. A reference resolving to an attack makes
the source read the missing `legendaryOnly` key, raising `KeyError`. -/
def legendaryStep (s : Stats) (r : LegRef) : Except String NamedDesc :=
  match getAction r.actionId s with
  | .error e => .error e
  | .ok (.attack _) => .error "KeyError: legendaryOnly"
  | .ok (.action a) =>
    let nd :=
      if a.legendaryOnly then processAction a s
      else NamedDesc.mk a.name ("The " ++ s.name ++ " uses its " ++ a.name ++ " action.")
    .ok (if r.cost ≠ 1 then
          NamedDesc.mk (nd.name ++ " (Costs " ++ toString r.cost ++ " Actions)") nd.desc
        else nd)

/-- `process_legendary_actions`: the source builds each entry but never
appends it to its `actions` result list, so the returned list is empty;
only the errors of the loop body survive. -/
def processLegendaryActions (s : Stats) : Except String (List NamedDesc) :=
  match mapME (legendaryStep s) s.legendaryActions.actions with
  | .error e => .error e
  | .ok _ => .ok []

/-- One speed string of `process_speed`. -/
def speedStr (sp : Speed) : String :=
  (if sp.type = "walk" then toString sp.speed ++ " ft."
   else sp.type ++ " " ++ toString sp.speed ++ " ft.")
  ++ (if sp.note ≠ "" then " (" ++ sp.note ++ ")" else "")

/-- `process_speed`. -/
def processSpeed (s : Stats) : String := pyJoin ", " (s.speeds.map speedStr)

/-- The saving-throw dict of `parse_stats` (computed by the source but never
stored in the output). -/
def savesMap (s : Stats) : List (String × Int) :=
  abilityOrder.foldl (fun m ab =>
    let sv := getSave s.saves ab
    if sv.override then dictInsert m (abilityFull ab) sv.overrideValue
    else if sv.proficient then
      dictInsert m (abilityFull ab) (calcModifier (getScore s.stats ab) + s.proficiency)
    else m) []

/-- The skills dict of `parse_stats`: override beats proficient, expertise
adds the proficiency bonus a second time. -/
def skillsMap (s : Stats) : List (String × Int) :=
  s.skills.foldl (fun m sk =>
    if sk.override then dictInsert m (pyToLower sk.label) sk.overrideValue
    else if sk.proficient then
      dictInsert m (pyToLower sk.label)
        (calcModifier (getScore s.stats sk.stat) + s.proficiency
          + (if sk.expertise then s.proficiency else 0))
    else m) []

/-- The passive-perception value of `parse_stats`: the perception skill bonus
when present, else 0 — the source adds no base 10. -/
def passivePerception (s : Stats) : Int :=
  match (skillsMap s).lookup "perception" with
  | some v => v
  | none => 0

/-- The senses string of `parse_stats`: each non-zero sense, then the
passive-perception entry, joined by `", "`. -/
def sensesString (s : Stats) : String :=
  pyJoin ", "
    ((s.senses.filter (fun p => p.2 ≠ 0)).map
        (fun p => pyTitle p.1 ++ " " ++ toString p.2 ++ " ft.")
      ++ ["Passive Perception " ++ toString (passivePerception s)])

/-- The hp value of `parse_stats`:
`floor(dice_avg(dice_type) * num_dice + calc_modifier(CON) * num_dice)` —
one floor over the whole sum, written over the common denominator 2 so the
kernel can evaluate it. The bridging lemma `hpValue_eq_floor` below
identifies it with the floored rational sum the source computes in float
arithmetic. -/
def hpValue (s : Stats) : Int :=
  (s.HP.HD * (s.HP.type + 1) + 2 * (calcModifier (getScore s.stats .CON) * s.HP.HD)) / 2

/-- The output record built by `parse_stats`, fields in insertion order. -/
structure Statblock where
  layout : String
  dice : Bool
  name : String
  size : String
  type : String
  alignment : String
  languages : String
  ac : Int
  cr : String
  damage_vulnerabilities : String
  damage_resistances : String
  damage_immunities : String
  condition_immunities : String
  speed : String
  abilities : List Int
  hp : Int
  hit_dice : String
  skillsaves : List (String × Int)
  senses : String
  traits : List NamedDesc
  actions : List NamedDesc
  reactions : List NamedDesc
  bonus_actions : List NamedDesc
  legendary_actions : List NamedDesc
deriving Repr, DecidableEq

/-- `parse_stats`: the whole conversion. The fallible stages run in source
order — traits, then multiattack, then attacks, then legendary actions — and
the first uncaught exception aborts the conversion with no output record.
The saves dict is computed by the source and dropped, as here. -/
def parseStats (s : Stats) : Except String Statblock :=
  let _saves := savesMap s
  match processTraits s with
  | .error e => .error e
  | .ok traits =>
    match processMultiattack s with
    | .error e => .error e
    | .ok ma =>
      match processAttacks s with
      | .error e => .error e
      | .ok atks =>
        match processLegendaryActions s with
        | .error e => .error e
        | .ok legendary =>
          .ok {
            layout := "Basic 5e Layout"
            dice := true
            name := s.name
            size := s.size
            type := s.type
            alignment := s.alignment
            languages := s.languages
            ac := s.AC
            cr := s.CR
            damage_vulnerabilities := pyJoin ", " s.vulnerabilities
            damage_resistances := pyJoin ", " s.resistances
            damage_immunities := pyJoin ", " s.immunities
            condition_immunities := pyJoin ", " s.conditions
            speed := processSpeed s
            abilities := [s.stats.STR, s.stats.DEX, s.stats.CON,
                          s.stats.INT, s.stats.WIS, s.stats.CHA]
            hp := hpValue s
            hit_dice := toString s.HP.HD ++ "d" ++ toString s.HP.type
            skillsaves := skillsMap s
            senses := sensesString s
            traits := traits
            actions := (if ma = "" then [] else [NamedDesc.mk "Multiattack" ma])
              ++ atks
              ++ (s.actions.filter (fun a => !(a.legendaryOnly || a.bonusAction))).map
                  (fun a => processAction a s)
            reactions := s.reactions.map (fun a => processAction a s)
            bonus_actions := (s.actions.filter (fun a => a.bonusAction)).map
              (fun a => processAction a s)
            legendary_actions := legendary }

/-- A kernel-reducible suffix test on strings, used to state the
passive-perception claims. -/
def strEndsWith (s suffix : String) : Bool := suffix.data.isSuffixOf s.data

/-- An id resolves when some attack or some action carries it — exactly the
success condition of `get_action`. -/
def isResolvable (s : Stats) (i : String) : Bool :=
  s.attacks.any (fun a => a.id == i) || s.actions.any (fun a => a.id == i)

/-- Every id referenced by some multiattack group (attack or action ids). -/
def maRefs (s : Stats) : List String :=
  s.multiattacks.flatMap (fun m => m.attacks ++ m.actions)

/-- Every id referenced by a multiattack group or a legendary action. -/
def referencedIds (s : Stats) : List String :=
  maRefs s ++ s.legendaryActions.actions.map (fun r => r.actionId)

end FiveEmm

instance {ε α : Type _} [DecidableEq ε] [DecidableEq α] : DecidableEq (Except ε α) :=
  fun x y =>
    match x, y with
    | .ok a, .ok b =>
      if h : a = b then isTrue (h ▸ rfl) else isFalse (fun he => h (Except.ok.inj he))
    | .error a, .error b =>
      if h : a = b then isTrue (h ▸ rfl) else isFalse (fun he => h (Except.error.inj he))
    | .ok _, .error _ => isFalse (fun he => Except.noConfusion he)
    | .error _, .ok _ => isFalse (fun he => Except.noConfusion he)

namespace FiveEmm

/-- A minimal well-formed input record, the base the concrete test inputs
are built from. -/
def baseStats : Stats := {
  name := "X"
  useArticleInToken := false
  proficiency := 2
  stats := ⟨10, 10, 10, 10, 10, 10⟩
  saves := ⟨⟨false, false, 0⟩, ⟨false, false, 0⟩, ⟨false, false, 0⟩,
            ⟨false, false, 0⟩, ⟨false, false, 0⟩, ⟨false, false, 0⟩⟩
  skills := []
  attacks := []
  actions := []
  reactions := []
  multiattacks := []
  legendaryActions := ⟨[]⟩
  traits := []
  speeds := []
  senses := []
  vulnerabilities := []
  resistances := []
  immunities := []
  conditions := []
  HP := ⟨2, 8⟩
  AC := 12
  CR := "1"
  size := "Medium"
  type := "humanoid"
  alignment := "neutral"
  languages := "Common" }

/-- A plain melee attack used by several concrete inputs. -/
def clawAttack : Attack := {
  id := "atk1"
  name := "Claw"
  distance := .MELEE
  kind := "weapon"
  range := ⟨5, 0, 0⟩
  modifier := ⟨false, 0, .STR⟩
  damage := ⟨1, 6, ⟨false, 0, .STR⟩, "slashing"⟩
  alternateDamage := ⟨false, 0, 0, ⟨false, 0, .STR⟩, "", ""⟩
  additionalDamage := []
  targets := 1
  description := "" }

/-- Input for C1: a legendary action referencing the non-legendary action
Bite with cost 2. -/
def c1Stats : Stats := { baseStats with
  name := "Dragon"
  actions := [⟨"bite", "Bite", "bdesc", none, false, false⟩]
  legendaryActions := ⟨[⟨"bite", 2⟩]⟩ }

/-- Input for C2: one multiattack group referencing the attack Claw and the
action Dash. -/
def c2Stats : Stats := { baseStats with
  name := "Wolf"
  attacks := [clawAttack]
  actions := [⟨"a1", "Dash", "ddesc", none, false, false⟩]
  multiattacks := [⟨["atk1"], ["a1"]⟩] }

/-- Input for C3: an attack with both distances, reach 5, standard range 30
and long range 120. -/
def c3Attack : Attack := { clawAttack with
  distance := .BOTH
  range := ⟨5, 30, 120⟩ }

/-- Input for C4: no skills and no senses, so no perception entry exists. -/
def c4Stats : Stats := baseStats

/-- Input for C5, zero-count side: a trait with no limited-use count. -/
def c5aStats : Stats := { baseStats with
  traits := [⟨"Keen Hearing", "The wolf has keen hearing.", ⟨0, "day"⟩⟩] }

/-- Input for C5, non-zero-count side: the same trait with count 3. -/
def c5bStats : Stats := { baseStats with
  traits := [⟨"Keen Hearing", "The wolf has keen hearing.", ⟨3, "day"⟩⟩] }

/-- Input for C6: no multiattack groups at all. -/
def c6Stats : Stats := { baseStats with name := "Goblin" }

/-- Input for C10: the only legendary action references the unknown id
`ghost`. -/
def c10Stats : Stats := { baseStats with legendaryActions := ⟨[⟨"ghost", 1⟩]⟩ }

/-- Input for C7: one group with attack references `[A, A, B]` where A is
Claw and B is Bite, and no action references. -/
def c7Stats : Stats := { baseStats with
  name := "Korg"
  attacks := [clawAttack, { clawAttack with id := "atk2", name := "Bite" }]
  multiattacks := [⟨["atk1", "atk1", "atk2"], []⟩] }

/-- Input attack for C8: primary damage type slashing, active alternate
damage with its own type fire and a condition text. -/
def c8Attack : Attack := { clawAttack with
  damage := ⟨1, 6, ⟨false, 0, .STR⟩, "slashing"⟩
  alternateDamage := ⟨true, 1, 6, ⟨true, 2, .STR⟩, "fire", "if the target is grappled"⟩ }

/-- `strEndsWith` holds exactly when the string decomposes as `pre ++ suffix`. -/
theorem strEndsWith_iff (s suffix : String) :
    strEndsWith s suffix = true ↔ ∃ pre, s = pre ++ suffix := by
  unfold strEndsWith
  rw [List.isSuffixOf_iff_suffix]
  constructor
  · rintro ⟨t, ht⟩
    refine ⟨⟨t⟩, ?_⟩
    apply String.ext
    simpa [String.data_append] using ht.symm
  · rintro ⟨pre, hpre⟩
    exact ⟨pre.data, by simp [hpre, String.data_append]⟩

/-- String append is associative. -/
theorem strAppendAssoc (a b c : String) : (a ++ b) ++ c = a ++ (b ++ c) := by
  apply String.ext
  simp [String.data_append]

/-- Joining a list whose last element is `x` yields a string ending in `x`. -/
theorem pyJoin_append_last (sep x : String) :
    ∀ l : List String, ∃ pre, pyJoin sep (l ++ [x]) = pre ++ x
  | [] => ⟨"", rfl⟩
  | [a] => ⟨a ++ sep, by simp [pyJoin, strAppendAssoc]⟩
  | a :: b :: l => by
    obtain ⟨pre, hpre⟩ := pyJoin_append_last sep x (b :: l)
    refine ⟨a ++ sep ++ pre, ?_⟩
    simp only [List.cons_append, List.append_eq, pyJoin] at hpre ⊢
    rw [hpre]
    simp [strAppendAssoc]

/-- `calcDice` is the floored rational product the source computes. -/
theorem calcDice_eq_floor (c d : Int) : calcDice c d = ⌊(c : ℚ) * diceAvg d⌋ := by
  unfold calcDice diceAvg
  rw [show (c : ℚ) * ((d + 1) / 2) = ((c * (d + 1) : ℤ) : ℚ) / ((2 : ℕ) : ℚ) by
    push_cast; ring]
  rw [Rat.floor_intCast_div_natCast]
  norm_num

/-- `hpValue` is the floored rational sum the source computes: one floor over
`dice_avg(type) * HD + calc_modifier(CON) * HD`. -/
theorem hpValue_eq_floor (s : Stats) :
    hpValue s = ⌊diceAvg s.HP.type * (s.HP.HD : ℚ)
      + ((calcModifier (getScore s.stats .CON) * s.HP.HD : Int) : ℚ)⌋ := by
  unfold hpValue
  rw [Int.floor_add_int]
  rw [show diceAvg s.HP.type * (s.HP.HD : ℚ)
      = ((s.HP.HD * (s.HP.type + 1) : ℤ) : ℚ) / ((2 : ℕ) : ℚ) by
    unfold diceAvg; push_cast; ring]
  rw [Rat.floor_intCast_div_natCast]
  rw [show s.HP.HD * (s.HP.type + 1)
        + 2 * (calcModifier (getScore s.stats .CON) * s.HP.HD)
      = s.HP.HD * (s.HP.type + 1)
        + (calcModifier (getScore s.stats .CON) * s.HP.HD) * 2 by ring]
  rw [Int.add_mul_ediv_right _ _ (by norm_num : (2 : ℤ) ≠ 0)]
  norm_num

/-- C9: the hp value stored by `parse_stats` equals both the single floor of
the source, `floor(dice_avg(type) * HD + calc_modifier(CON) * HD)` (first
conjunct), and the formula of the spec with the floor applied to the dice
part alone, `floor(dice_avg(type) * HD) + calc_modifier(CON) * HD` (second
conjunct) — the two agree because the CON contribution is an integer. -/
theorem c9_hp_floor_equivalence (s : Stats) :
    hpValue s = ⌊diceAvg s.HP.type * (s.HP.HD : ℚ)
        + ((calcModifier (getScore s.stats .CON) * s.HP.HD : Int) : ℚ)⌋
      ∧ hpValue s = ⌊diceAvg s.HP.type * (s.HP.HD : ℚ)⌋
          + calcModifier (getScore s.stats .CON) * s.HP.HD :=
  ⟨hpValue_eq_floor s, by rw [hpValue_eq_floor s, Int.floor_add_int]⟩

/-- C4 amended: for every input, the senses string built by `parse_stats`
(stored verbatim in the `senses` output field) ends with
`Passive Perception <p>`, where `p` is the perception skill bonus when a
perception entry exists in the skills mapping and 0 otherwise — the source
adds no base 10. -/
theorem c4_passive_perception_amended (s : Stats) :
    strEndsWith (sensesString s)
      ("Passive Perception " ++ toString (passivePerception s)) = true := by
  rw [strEndsWith_iff]
  unfold sensesString
  exact pyJoin_append_last _ _ _

/-- C1: the loop body of `process_legendary_actions` builds exactly the entry
the claim describes — name `Bite (Costs 2 Actions)`, desc
`The Dragon uses its Bite action.` — but the function never appends it to its
result list, so the `legendary_actions` output of the conversion is empty and
the claimed entry is absent. -/
theorem c1_legendary_entries_discarded :
    legendaryStep c1Stats ⟨"bite", 2⟩
        = .ok ⟨"Bite (Costs 2 Actions)", "The Dragon uses its Bite action."⟩
      ∧ (parseStats c1Stats).map (fun o => o.legendary_actions) = .ok []
      ∧ ([] : List NamedDesc)
          ≠ [⟨"Bite (Costs 2 Actions)", "The Dragon uses its Bite action."⟩] := by
  refine ⟨by decide, by decide, by decide⟩

/-- C2: the source appends the rendered action phrases to its `attacks` list
and never populates its `actions` list, so a group that references an action
is still rendered with the `makes ...` form — the claimed
`uses ... followed by ...` form is unreachable. -/
theorem c2_multiattack_action_group_uses_makes :
    processMultiattack c2Stats = .ok "Wolf makes one Claw attack, one Dash."
      ∧ "Wolf makes one Claw attack, one Dash."
          ≠ "Wolf uses one Dash followed by one Claw attack." := by
  refine ⟨by decide, by decide⟩

/-- C3: the reach clause and the `" or "` join are as claimed, but the range
clause divides the standard range by the long range (Python float division),
rendering `range 0.25 ft.` instead of the claimed `range 30/120 ft.`. -/
theorem c3_range_clause_divides :
    reachRangeClause c3Attack = .ok "reach 5 ft. or range 0.25 ft., "
      ∧ "reach 5 ft. or range 0.25 ft., " ≠ "reach 5 ft. or range 30/120 ft., " := by
  refine ⟨by decide, by decide⟩

/-- C4 counterexample: with no perception entry the senses string is exactly
`Passive Perception 0` — the source never adds the base 10 — so it does not
end with the claimed `Passive Perception 10`. -/
theorem c4_passive_perception_counterexample :
    (parseStats c4Stats).map (fun o => o.senses) = .ok "Passive Perception 0"
      ∧ ∀ pre, "Passive Perception 0" ≠ pre ++ "Passive Perception 10" := by
  refine ⟨by decide, ?_⟩
  intro pre h
  have : strEndsWith "Passive Perception 0" "Passive Perception 10" = true :=
    (strEndsWith_iff _ _).mpr ⟨pre, h⟩
  exact absurd this (by decide)

/-- C5: a trait without a limited-use count passes through as the claim says,
but a trait with a non-zero count makes the source call `append` on the name
string, an `AttributeError` that aborts the conversion — no suffixed name is
ever produced. -/
theorem c5_trait_limited_use_crash :
    processTraits c5aStats = .ok [⟨"Keen Hearing", "The wolf has keen hearing."⟩]
      ∧ processTraits c5bStats
          = .error "AttributeError: str object has no attribute append"
      ∧ (parseStats c5bStats).isOk = false := by
  refine ⟨by decide, by decide, by decide⟩

/-- C6: with zero multiattack groups, `process_multiattack` still returns the
non-empty string `Goblin .`, so the truthiness guard in `parse_stats` passes
and a Multiattack entry is appended — the claimed absence fails. -/
theorem c6_empty_multiattack_entry_present :
    (parseStats c6Stats).map (fun o => o.actions)
        = .ok [⟨"Multiattack", "Goblin ."⟩]
      ∧ ([⟨"Multiattack", "Goblin ."⟩] : List NamedDesc) ≠ [] := by
  refine ⟨by decide, by decide⟩

/-- C7 counterexample: the rendered phrases are joined with `", "`, also
before the final `"and "`-prefixed phrase, so the description reads
`makes two Claw attacks, and one Bite attack` — not the claimed
`makes two Claw attacks and one Bite attack` without the comma. -/
theorem c7_comma_before_and_counterexample :
    processMultiattack c7Stats
        = .ok "Korg makes two Claw attacks, and one Bite attack."
      ∧ "Korg makes two Claw attacks, and one Bite attack."
          ≠ "Korg makes two Claw attacks and one Bite attack." := by
  refine ⟨by decide, by decide⟩

/-- C8 counterexample: the alternate-damage suffix takes its damage type from
the primary damage spec (`attack["damage"]["type"]`), not from the alternate
damage itself: with primary type slashing and alternate type fire the suffix
says `slashing damage`, not the claimed `fire damage`. -/
theorem c8_alternate_type_counterexample :
    altSuffix baseStats c8Attack
        = ", or 5 (1d6+2) slashing damage if the target is grappled"
      ∧ ", or 5 (1d6+2) slashing damage if the target is grappled"
          ≠ ", or 5 (1d6+2) fire damage if the target is grappled" := by
  refine ⟨by decide, by decide⟩

/-- C7 amended: a multiattack group with attack references `[A, A, B]`
(`A ≠ B`, both resolving) and no action references renders as the monster
name, a space, `makes two <A> attacks, and one <B> attack` — the collated
phrases joined by `", "`, the last prefixed with `"and "` — and a final
period. -/
theorem c7_multiattack_aab_amended (s : Stats) (A B nA nB : String)
    (hma : s.multiattacks = [⟨[A, A, B], []⟩])
    (hAB : A ≠ B)
    (hA : (getAction A s).map entryName = .ok nA)
    (hB : (getAction B s).map entryName = .ok nB) :
    processMultiattack s
      = .ok (s.name ++ " makes two " ++ nA ++ " attacks, and one " ++ nB ++ " attack.") := by
  have hABf : (A == B) = false := beq_eq_false_iff_ne.mpr hAB
  obtain ⟨eA, hgA⟩ : ∃ e, getAction A s = .ok e := by
    cases h : getAction A s with
    | error e => rw [h] at hA; exact absurd hA (by simp [Except.map])
    | ok e => exact ⟨e, rfl⟩
  have hnA : entryName eA = nA := by
    rw [hgA] at hA
    simpa [Except.map] using hA
  obtain ⟨eB, hgB⟩ : ∃ e, getAction B s = .ok e := by
    cases h : getAction B s with
    | error e => rw [h] at hB; exact absurd hB (by simp [Except.map])
    | ok e => exact ⟨e, rfl⟩
  have hnB : entryName eB = nB := by
    rw [hgB] at hB
    simpa [Except.map] using hB
  have hcol : collate [A, A, B] = [(A, 2), (B, 1)] := by
    simp [collate, collStep, hABf]
  unfold processMultiattack
  rw [hma]
  simp only [mapME, renderGroup, hcol]
  simp only [renderAttackItems, renderActionItems, collate, List.foldl, hgA, hgB, hnA, hnB]
  simp only [numToWords, numWordSmall, pyJoin]
  norm_num
  simp only [strAppendAssoc]
  rfl

/-- C7 witness: the amended theorem instantiated at the concrete Korg input
with attack references `[atk1, atk1, atk2]` resolving to Claw and Bite. -/
theorem c7_multiattack_aab_witness :
    processMultiattack c7Stats
      = .ok "Korg makes two Claw attacks, and one Bite attack." :=
  c7_multiattack_aab_amended c7Stats "atk1" "atk2" "Claw" "Bite"
    (by decide) (by decide) (by decide) (by decide)

/-- C8 amended: for every attack whose alternate damage is active, the attack
description contains, between the parts before and after it, the segment
`", or "` followed by the damage phrase built from the alternate damage count,
dice and resolved modifier together with the primary damage type, then a
space and the alternate damage condition text. -/
theorem c8_alternate_damage_amended (s : Stats) (atk : Attack) (d : String)
    (hd : attackDescription s atk = .ok d)
    (hact : atk.alternateDamage.active = true) :
    ∃ pre post, d = pre ++ (", or "
      ++ damageStr atk.alternateDamage.count atk.alternateDamage.dice
          (resolveModifier s atk.alternateDamage.modifier) atk.damage.type
      ++ " " ++ atk.alternateDamage.condition) ++ post := by
  unfold attackDescription at hd
  cases hh : attackHead s atk with
  | error e => rw [hh] at hd; exact absurd hd (by simp)
  | ok head =>
    rw [hh] at hd
    refine ⟨head ++ hitPart s atk,
      addlSuffix atk ++ "."
        ++ (if atk.description ≠ "" then " " ++ atk.description else ""), ?_⟩
    rw [← Except.ok.inj hd]
    simp [altSuffix, hact, strAppendAssoc]

/-- C8 witness: the amended theorem instantiated at the concrete attack with
primary type slashing and active alternate damage. -/
theorem c8_alternate_damage_witness :
    ∃ pre post,
      "Melee Weapon Attack: +0 to hit, reach 5 ft., one target. Hit: 3 (1d6+0) slashing damage, or 5 (1d6+2) slashing damage if the target is grappled."
        = pre ++ (", or "
          ++ damageStr c8Attack.alternateDamage.count c8Attack.alternateDamage.dice
              (resolveModifier baseStats c8Attack.alternateDamage.modifier)
              c8Attack.damage.type
          ++ " " ++ c8Attack.alternateDamage.condition) ++ post :=
  c8_alternate_damage_amended baseStats c8Attack _ (by decide) (by decide)

/-- `get_action` raises its lookup `ValueError` exactly on unresolvable ids. -/
theorem getAction_err (s : Stats) (i : String) (h : isResolvable s i = false) :
    getAction i s = .error (lookupMsg i) := by
  unfold isResolvable at h
  rw [Bool.or_eq_false_iff] at h
  have h1 : s.attacks.find? (fun a => a.id == i) = none := by
    rw [List.find?_eq_none]
    intro x hx
    have := List.any_eq_false.mp h.1 x hx
    simpa using this
  have h2 : s.actions.find? (fun a => a.id == i) = none := by
    rw [List.find?_eq_none]
    intro x hx
    have := List.any_eq_false.mp h.2 x hx
    simpa using this
  unfold getAction
  rw [h1, h2]

/-- `get_action` succeeds on every resolvable id. -/
theorem getAction_ok (s : Stats) (i : String) (h : isResolvable s i = true) :
    ∃ e, getAction i s = .ok e := by
  unfold getAction
  cases hf : s.attacks.find? (fun a => a.id == i) with
  | some a => exact ⟨.attack a, rfl⟩
  | none =>
    cases hf2 : s.actions.find? (fun a => a.id == i) with
    | some a => exact ⟨.action a, rfl⟩
    | none =>
      exfalso
      unfold isResolvable at h
      rcases Bool.or_eq_true_iff.mp h with h | h
      · obtain ⟨x, hx, hpx⟩ := List.any_eq_true.mp h
        rw [List.find?_eq_none] at hf
        exact hf x hx hpx
      · obtain ⟨x, hx, hpx⟩ := List.any_eq_true.mp h
        rw [List.find?_eq_none] at hf2
        exact hf2 x hx hpx

/-- One `Counter` step neither loses nor invents keys: the keys after the
step are the old keys plus the inserted id. -/
theorem collStep_keys (acc : List (String × Nat)) (a j : String) :
    j ∈ (collStep acc a).map Prod.fst ↔ j ∈ acc.map Prod.fst ∨ j = a := by
  unfold collStep
  split
  next hany =>
    have hfst : (acc.map (fun p => if p.1 == a then (p.1, p.2 + 1) else p)).map Prod.fst
        = acc.map Prod.fst := by
      rw [List.map_map]
      apply List.map_congr_left
      intro p _
      show Prod.fst (if p.1 == a then (p.1, p.2 + 1) else p) = p.1
      split <;> rfl
    rw [hfst]
    constructor
    · exact Or.inl
    · rintro (h | rfl)
      · exact h
      · obtain ⟨p, hp, hpa⟩ := List.any_eq_true.mp hany
        have hpj : p.1 = j := by simpa using hpa
        exact hpj ▸ List.mem_map.mpr ⟨p, hp, rfl⟩
  next hany =>
    rw [List.map_append]
    simp [List.mem_append]

/-- The keys of `Counter(l)` are exactly the members of `l`. -/
theorem collate_mem (l : List String) (j : String) :
    j ∈ (collate l).map Prod.fst ↔ j ∈ l := by
  suffices h : ∀ (l : List String) (acc : List (String × Nat)),
      j ∈ (l.foldl collStep acc).map Prod.fst ↔ j ∈ acc.map Prod.fst ∨ j ∈ l by
    simpa [collate] using h l []
  intro l
  induction l with
  | nil => intro acc; simp
  | cons a l ih =>
    intro acc
    simp only [List.foldl_cons]
    rw [ih (collStep acc a), collStep_keys]
    simp [List.mem_cons]
    tauto

/-- The attack-rendering loop either succeeds with every scanned id
resolvable, or fails with the lookup message of some unresolvable id. -/
theorem renderAttackItems_spec (s : Stats) (total : Nat) :
    ∀ (items : List (String × Nat)) (idx : Nat),
      ((∀ j ∈ items.map Prod.fst, isResolvable s j = true)
          ∧ ∃ r, renderAttackItems s total idx items = .ok r)
        ∨ ∃ j, j ∈ items.map Prod.fst ∧ isResolvable s j = false
            ∧ renderAttackItems s total idx items = .error (lookupMsg j)
  | [], _ => Or.inl ⟨by simp, ⟨[], rfl⟩⟩
  | (i, c) :: rest, idx => by
    cases hres : isResolvable s i with
    | false =>
      refine Or.inr ⟨i, by simp, hres, ?_⟩
      simp only [renderAttackItems, getAction_err s i hres]
    | true =>
      obtain ⟨e, he⟩ := getAction_ok s i hres
      rcases renderAttackItems_spec s total rest (idx + 1) with ⟨hall, r, hr⟩ | ⟨j, hjm, hjb, hje⟩
      · refine Or.inl ⟨?_, ⟨_, by simp only [renderAttackItems, he, hr]; rfl⟩⟩
        intro j hj
        rw [List.map_cons] at hj
        rcases List.mem_cons.mp hj with rfl | hj2
        · exact hres
        · exact hall j hj2
      · refine Or.inr ⟨j, by simp [hjm], hjb, ?_⟩
        simp only [renderAttackItems, he, hje]

/-- The action-rendering loop: same dichotomy. -/
theorem renderActionItems_spec (s : Stats) :
    ∀ items : List (String × Nat),
      ((∀ j ∈ items.map Prod.fst, isResolvable s j = true)
          ∧ ∃ r, renderActionItems s items = .ok r)
        ∨ ∃ j, j ∈ items.map Prod.fst ∧ isResolvable s j = false
            ∧ renderActionItems s items = .error (lookupMsg j)
  | [] => Or.inl ⟨by simp, ⟨[], rfl⟩⟩
  | (i, c) :: rest => by
    cases hres : isResolvable s i with
    | false =>
      refine Or.inr ⟨i, by simp, hres, ?_⟩
      simp only [renderActionItems, getAction_err s i hres]
    | true =>
      obtain ⟨e, he⟩ := getAction_ok s i hres
      rcases renderActionItems_spec s rest with ⟨hall, r, hr⟩ | ⟨j, hjm, hjb, hje⟩
      · refine Or.inl ⟨?_, ⟨_, by simp only [renderActionItems, he, hr]; rfl⟩⟩
        intro j hj
        rw [List.map_cons] at hj
        rcases List.mem_cons.mp hj with rfl | hj2
        · exact hres
        · exact hall j hj2
      · refine Or.inr ⟨j, by simp [hjm], hjb, ?_⟩
        simp only [renderActionItems, he, hje]

/-- One multiattack group either renders with every referenced id
resolvable, or fails with the lookup message of some unresolvable
referenced id. -/
theorem renderGroup_spec (s : Stats) (g : MAGroup) :
    ((∀ j ∈ g.attacks ++ g.actions, isResolvable s j = true)
        ∧ ∃ r, renderGroup s g = .ok r)
      ∨ ∃ j, j ∈ g.attacks ++ g.actions ∧ isResolvable s j = false
          ∧ renderGroup s g = .error (lookupMsg j) := by
  rcases renderAttackItems_spec s (collate g.attacks).length (collate g.attacks) 0 with
    ⟨hall1, r1, hr1⟩ | ⟨j, hjm, hjb, hje⟩
  · rcases renderActionItems_spec s (collate g.actions) with
      ⟨hall2, r2, hr2⟩ | ⟨j, hjm, hjb, hje⟩
    · refine Or.inl ⟨?_, ⟨_, by simp only [renderGroup, hr1, hr2]; rfl⟩⟩
      intro j hj
      rcases List.mem_append.mp hj with hja | hjc
      · exact hall1 j ((collate_mem _ _).mpr hja)
      · exact hall2 j ((collate_mem _ _).mpr hjc)
    · exact Or.inr ⟨j, List.mem_append.mpr (Or.inr ((collate_mem _ _).mp hjm)), hjb,
        by simp only [renderGroup, hr1, hje]⟩
  · exact Or.inr ⟨j, List.mem_append.mpr (Or.inl ((collate_mem _ _).mp hjm)), hjb,
      by simp only [renderGroup, hje]⟩

/-- The multiattack loop over all groups: same dichotomy, group membership
included. -/
theorem mapME_renderGroup_spec (s : Stats) :
    ∀ gs : List MAGroup,
      ((∀ g ∈ gs, ∀ j ∈ g.attacks ++ g.actions, isResolvable s j = true)
          ∧ ∃ r, mapME (renderGroup s) gs = .ok r)
        ∨ ∃ j, (∃ g, g ∈ gs ∧ j ∈ g.attacks ++ g.actions) ∧ isResolvable s j = false
            ∧ mapME (renderGroup s) gs = .error (lookupMsg j)
  | [] => Or.inl ⟨by simp, ⟨[], rfl⟩⟩
  | g :: gs => by
    rcases renderGroup_spec s g with ⟨hall, r, hr⟩ | ⟨j, hjm, hjb, hje⟩
    · rcases mapME_renderGroup_spec s gs with ⟨hall2, r2, hr2⟩ | ⟨j, ⟨g2, hg2, hjm⟩, hjb, hje⟩
      · refine Or.inl ⟨?_, ⟨_, by simp only [mapME, hr, hr2]; rfl⟩⟩
        intro g2 hg2
        rcases List.mem_cons.mp hg2 with rfl | h2
        · exact hall
        · exact hall2 g2 h2
      · exact Or.inr ⟨j, ⟨g2, List.mem_cons_of_mem _ hg2, hjm⟩, hjb,
          by simp only [mapME, hr, hje]⟩
    · exact Or.inr ⟨j, ⟨g, List.mem_cons_self g gs, hjm⟩, hjb,
        by simp only [mapME, hje]⟩

/-- `process_multiattack` either succeeds with every multiattack-referenced
id resolvable, or raises the lookup failure of some unresolvable one. -/
theorem processMultiattack_spec (s : Stats) :
    ((∀ j ∈ maRefs s, isResolvable s j = true) ∧ ∃ r, processMultiattack s = .ok r)
      ∨ ∃ j, j ∈ maRefs s ∧ isResolvable s j = false
          ∧ processMultiattack s = .error (lookupMsg j) := by
  rcases mapME_renderGroup_spec s s.multiattacks with ⟨hall, r, hr⟩ | ⟨j, ⟨g, hg, hjm⟩, hjb, hje⟩
  · refine Or.inl ⟨?_, ⟨_, by simp only [processMultiattack, hr]; rfl⟩⟩
    intro j hj
    unfold maRefs at hj
    obtain ⟨g, hg, hjg⟩ := List.mem_flatMap.mp hj
    exact hall g hg j hjg
  · refine Or.inr ⟨j, ?_, hjb, by simp only [processMultiattack, hje]⟩
    unfold maRefs
    exact List.mem_flatMap.mpr ⟨g, hg, hjm⟩

/-- One legendary-action step, when its reference does not hit an attack id:
it succeeds on a resolvable reference and raises the lookup failure on an
unresolvable one. -/
theorem legendaryStep_spec (s : Stats) (r : LegRef)
    (hatt : s.attacks.any (fun a => a.id == r.actionId) = false) :
    (isResolvable s r.actionId = true ∧ ∃ nd, legendaryStep s r = .ok nd)
      ∨ (isResolvable s r.actionId = false
          ∧ legendaryStep s r = .error (lookupMsg r.actionId)) := by
  have hfa : s.attacks.find? (fun a => a.id == r.actionId) = none := by
    rw [List.find?_eq_none]
    intro x hx
    have := List.any_eq_false.mp hatt x hx
    simpa using this
  cases hf : s.actions.find? (fun a => a.id == r.actionId) with
  | some a =>
    refine Or.inl ⟨?_, ⟨_, by simp only [legendaryStep, getAction, hfa, hf]; rfl⟩⟩
    unfold isResolvable
    rw [Bool.or_eq_true_iff]
    have hmem := List.mem_of_find?_eq_some hf
    have hpa : (a.id == r.actionId) = true := by
      have := List.find?_some hf
      simpa using this
    exact Or.inr (List.any_eq_true.mpr ⟨a, hmem, hpa⟩)
  | none =>
    refine Or.inr ⟨?_, by simp only [legendaryStep, getAction, hfa, hf]⟩
    unfold isResolvable
    rw [hatt, List.any_eq_false.mpr fun x hx => by
      rw [List.find?_eq_none] at hf
      simpa using hf x hx]
    rfl

/-- The legendary-action loop over all references: same dichotomy. -/
theorem mapME_legendary_spec (s : Stats) :
    ∀ refs : List LegRef,
      (∀ r ∈ refs, s.attacks.any (fun a => a.id == r.actionId) = false) →
      ((∀ r ∈ refs, isResolvable s r.actionId = true)
          ∧ ∃ out, mapME (legendaryStep s) refs = .ok out)
        ∨ ∃ r, r ∈ refs ∧ isResolvable s r.actionId = false
            ∧ mapME (legendaryStep s) refs = .error (lookupMsg r.actionId)
  | [], _ => Or.inl ⟨by simp, ⟨[], rfl⟩⟩
  | r :: refs, h => by
    rcases legendaryStep_spec s r (h r (List.mem_cons_self r refs)) with
      ⟨hres, nd, hnd⟩ | ⟨hres, herr⟩
    · rcases mapME_legendary_spec s refs (fun x hx => h x (List.mem_cons_of_mem r hx)) with
        ⟨hall, out, hout⟩ | ⟨r2, hr2, hr2b, hr2e⟩
      · refine Or.inl ⟨?_, ⟨_, by simp only [mapME, hnd, hout]; rfl⟩⟩
        intro x hx
        rcases List.mem_cons.mp hx with rfl | h2
        · exact hres
        · exact hall x h2
      · exact Or.inr ⟨r2, List.mem_cons_of_mem r hr2, hr2b,
          by simp only [mapME, hnd, hr2e]⟩
    · exact Or.inr ⟨r, List.mem_cons_self r refs, hres, by simp only [mapME, herr]⟩

/-- `process_legendary_actions`: either succeeds (with its empty result) and
every legendary-referenced id resolves, or raises the lookup failure of some
unresolvable one. -/
theorem processLegendaryActions_spec (s : Stats)
    (hleg : ∀ r ∈ s.legendaryActions.actions,
      s.attacks.any (fun a => a.id == r.actionId) = false) :
    ((∀ r ∈ s.legendaryActions.actions, isResolvable s r.actionId = true)
        ∧ processLegendaryActions s = .ok [])
      ∨ ∃ r, r ∈ s.legendaryActions.actions ∧ isResolvable s r.actionId = false
          ∧ processLegendaryActions s = .error (lookupMsg r.actionId) := by
  rcases mapME_legendary_spec s s.legendaryActions.actions hleg with
    ⟨hall, out, hout⟩ | ⟨r, hr, hrb, hre⟩
  · exact Or.inl ⟨hall, by simp only [processLegendaryActions, hout]⟩
  · exact Or.inr ⟨r, hr, hrb, by simp only [processLegendaryActions, hre]⟩

/-- A loop over `Except`-valued steps succeeds when every step does. -/
theorem mapME_ok {α β : Type _} (f : α → Except String β) :
    ∀ l : List α, (∀ x ∈ l, ∃ y, f x = .ok y) → ∃ r, mapME f l = .ok r
  | [], _ => ⟨[], rfl⟩
  | x :: xs, h => by
    obtain ⟨y, hy⟩ := h x (List.mem_cons_self x xs)
    obtain ⟨r, hr⟩ := mapME_ok f xs (fun z hz => h z (List.mem_cons_of_mem x hz))
    exact ⟨y :: r, by simp only [mapME, hy, hr]⟩

/-- An attack line renders without error when the attack is melee-only or
has a non-zero long range (no `ZeroDivisionError`). -/
theorem attackDescription_ok (s : Stats) (a : Attack)
    (h : a.distance = .MELEE ∨ a.range.long ≠ 0) :
    ∃ d, attackDescription s a = .ok d := by
  have hrc : ∃ rc, rangeClause a = .ok rc := by
    unfold rangeClause
    split
    next hcond =>
      rcases h with h | h
      · rw [h] at hcond
        rcases hcond with h2 | h2 <;> exact absurd h2 (by simp)
      · rw [if_neg h]
        exact ⟨_, rfl⟩
    next => exact ⟨"", rfl⟩
  obtain ⟨rc, hrc⟩ := hrc
  exact ⟨_, by simp only [attackDescription, attackHead, reachRangeClause, hrc]; rfl⟩

/-- `process_attacks` succeeds when every attack avoids the zero-long-range
division error. -/
theorem processAttacks_ok (s : Stats)
    (h : ∀ a ∈ s.attacks, a.distance = .MELEE ∨ a.range.long ≠ 0) :
    ∃ r, processAttacks s = .ok r := by
  apply mapME_ok
  intro a ha
  obtain ⟨d, hd⟩ := attackDescription_ok s a (h a ha)
  exact ⟨_, by simp only [hd]; rfl⟩

/-- The traits loop succeeds when no trait carries a non-zero limited-use
count (no `AttributeError`). -/
theorem processTraits_ok (s : Stats)
    (h : ∀ t ∈ s.traits, t.limitedUse.count = 0) :
    ∃ r, processTraits s = .ok r := by
  apply mapME_ok
  intro t ht
  exact ⟨_, by simp [h t ht]; rfl⟩

/-- C10: whenever some id referenced by a multiattack group or a legendary
action resolves to no attack and no action, the conversion aborts with the
`get_action` lookup error naming an unresolvable referenced id, and produces
no output record. The side conditions rule out the three unrelated defects
that could abort the conversion earlier for other reasons: a trait with a
non-zero limited-use count (`AttributeError`), a ranged attack with zero
long range (`ZeroDivisionError`), and a legendary reference hitting an
attack id (`KeyError`). -/
theorem c10_lookup_failure_fatal (s : Stats) (i : String)
    (hi : i ∈ referencedIds s)
    (hmiss : isResolvable s i = false)
    (htraits : ∀ t ∈ s.traits, t.limitedUse.count = 0)
    (hattacks : ∀ a ∈ s.attacks, a.distance = .MELEE ∨ a.range.long ≠ 0)
    (hleg : ∀ r ∈ s.legendaryActions.actions,
      s.attacks.any (fun a => a.id == r.actionId) = false) :
    ∃ j, j ∈ referencedIds s ∧ isResolvable s j = false
      ∧ parseStats s = .error (lookupMsg j) := by
  obtain ⟨ts, hts⟩ := processTraits_ok s htraits
  rcases processMultiattack_spec s with ⟨hmall, r, hmok⟩ | ⟨j, hjm, hjb, hje⟩
  · obtain ⟨as, has⟩ := processAttacks_ok s hattacks
    rcases processLegendaryActions_spec s hleg with ⟨hlall, hlok⟩ | ⟨rr, hrm, hrb, hre⟩
    · exfalso
      unfold referencedIds at hi
      rcases List.mem_append.mp hi with him | hil
      · rw [hmall i him] at hmiss
        exact Bool.noConfusion hmiss
      · obtain ⟨rr, hrr, hreq⟩ := List.mem_map.mp hil
        rw [← hreq, hlall rr hrr] at hmiss
        exact Bool.noConfusion hmiss
    · refine ⟨rr.actionId, ?_, hrb, ?_⟩
      · unfold referencedIds
        exact List.mem_append.mpr (Or.inr (List.mem_map.mpr ⟨rr, hrm, rfl⟩))
      · simp only [parseStats, hts, hmok, has, hre]
  · refine ⟨j, ?_, hjb, ?_⟩
    · unfold referencedIds
      exact List.mem_append.mpr (Or.inl hjm)
    · simp only [parseStats, hts, hje]

/-- C10 witness: a monster whose only legendary action references the
unknown id `ghost` makes the whole conversion fail with the lookup error
naming `ghost`. -/
theorem c10_lookup_failure_witness :
    parseStats c10Stats = .error ("Attack with ID " ++ "ghost" ++ " not found") := by
  obtain ⟨j, hj, -, he⟩ := c10_lookup_failure_fatal c10Stats "ghost"
    (by decide) (by decide) (by decide) (by decide) (by decide)
  have hrefs : referencedIds c10Stats = ["ghost"] := by decide
  rw [hrefs] at hj
  have hjg : j = "ghost" := by simpa using hj
  rw [hjg] at he
  exact he

end FiveEmm
